import Mathlib

/-!
Verification development for the flask-strawberry-mongo demo service: a
shallow embedding of its persistence adapter (`models/user_model.py`),
resolver layer (`schema.py`) and startup configuration (`database.py`),
together with theorems settling the specification's claims.

Python exceptions are modelled with `Except`; the MongoDB collection is
modelled as a list of well-shaped documents together with the driver's
ObjectId-minting source, and every operation passes that state explicitly.
-/

namespace FlaskMongo

/-! ## Model of bson ObjectId

A pymongo `ObjectId` is 12 bytes; its accepted string form is exactly 24
hexadecimal characters (`bson.objectid.ObjectId.__validate`), and `str` of
an ObjectId is its lowercase 24-hex-digit rendering. We model the 12 bytes
as a natural number below `16 ^ 24`. -/

/-- Hexadecimal digit test for a character, as `bytes.fromhex` accepts. -/
def isHexChar (c : Char) : Bool :=
  decide (('0' ≤ c ∧ c ≤ '9') ∨ ('a' ≤ c ∧ c ≤ 'f') ∨ ('A' ≤ c ∧ c ≤ 'F'))

/-- Numeric value of a hexadecimal digit character (0 on non-digits). -/
def hexVal (c : Char) : Nat :=
  if '0' ≤ c ∧ c ≤ '9' then c.toNat - '0'.toNat
  else if 'a' ≤ c ∧ c ≤ 'f' then c.toNat - 'a'.toNat + 10
  else if 'A' ≤ c ∧ c ≤ 'F' then c.toNat - 'A'.toNat + 10
  else 0

/-- The string forms `bson.objectid.ObjectId` accepts: exactly 24
hexadecimal characters. -/
def isValidOidString (s : String) : Bool :=
  s.length == 24 && s.data.all isHexChar

/-- A store-native identifier (the 12 ObjectId bytes, as a number). -/
structure OId where
  val : Nat
deriving DecidableEq, Repr

/-- Python exceptions that can escape the modelled code paths:
`bson.errors.InvalidId` from `ObjectId(...)`, and `TypeError` from
subscripting `None`. -/
inductive PyError
  | invalidId
  | typeError
deriving DecidableEq, Repr

/-- Big-endian value of a list of hexadecimal digit characters. -/
def parseHexChars (cs : List Char) : Nat :=
  cs.foldl (fun a c => 16 * a + hexVal c) 0

/-- Models the `ObjectId(user_id)` constructor: a 24-hex-char string is
parsed to its 12-byte value, anything else raises `InvalidId`. -/
def objectId (s : String) : Except PyError OId :=
  if isValidOidString s then .ok ⟨parseHexChars s.data⟩ else .error .invalidId

/-- Lowercase hexadecimal digit character for a value below 16. -/
def hexChar (d : Nat) : Char :=
  if d < 10 then Char.ofNat ('0'.toNat + d) else Char.ofNat ('a'.toNat + (d - 10))

/-- Big-endian, zero-padded list of `k` lowercase hex digit characters of
`n` (modulo `16 ^ k`). -/
def toHexChars : Nat → Nat → List Char
  | 0, _ => []
  | k + 1, n => toHexChars k (n / 16) ++ [hexChar (n % 16)]

/-- Models `str(oid)`: the lowercase 24-hex-digit rendering. -/
def oidToString (o : OId) : String :=
  ⟨toHexChars 24 o.val⟩

/-! ## Model of the MongoDB collection `usersData`

A stored document always carries `_id`, and every document this service
writes has exactly the fields `_id`, `name`, `email` (the spec's persisted
state layout). `nextId` models the driver's ObjectId-minting source:
pymongo generates the `_id` client-side on `insert_one`, and freshly
generated ObjectIds never collide with stored ones (the `DB.wf`
hypothesis below). -/

/-- One document of the `usersData` collection. -/
structure Rec where
  oid : OId
  name : String
  email : String
deriving DecidableEq, Repr

/-- The state visible to the service: the stored documents (in storage
order) and the driver's id-minting source. -/
structure DB where
  records : List Rec
  nextId : Nat
deriving DecidableEq, Repr

/-- Well-formedness of the store: every stored `_id` was minted earlier
than the next one (so fresh ids are really fresh), and the minting source
has not exhausted the 12-byte ObjectId space. -/
def DB.wf (db : DB) : Prop :=
  (∀ r ∈ db.records, r.oid.val < db.nextId) ∧ db.nextId < 16 ^ 24

/-- Models `users_collection.find()`: every stored document. -/
def find (db : DB) : List Rec :=
  db.records

/-- Models `users_collection.find_one({"_id": o})`: the first stored
document whose `_id` equals `o`, or `None`. -/
def find_one (o : OId) (db : DB) : Option Rec :=
  db.records.find? (fun r => r.oid == o)

/-- Models `users_collection.insert_one({"name": name, "email": email})`:
the driver mints a fresh `_id` and the document is stored; the result
carries `inserted_id`. -/
def insert_one (name email : String) (db : DB) : OId × DB :=
  let oid : OId := ⟨db.nextId⟩
  (oid, ⟨db.records ++ [⟨oid, name, email⟩], db.nextId + 1⟩)

/-- Models `users_collection.delete_one({"_id": o})`: removes the first
stored document whose `_id` equals `o`; the result carries
`deleted_count`. -/
def delete_one (o : OId) (db : DB) : Nat × DB :=
  ((if db.records.any (fun r => r.oid == o) then 1 else 0),
   ⟨db.records.eraseP (fun r => r.oid == o), db.nextId⟩)

/-! ## Persistence adapter — `src/models/user_model.py` -/

namespace UserModel

/-- Embeds `get_all_users`: `return list(users_collection.find())`. -/
def get_all_users (db : DB) : List Rec × DB :=
  (find db, db)

/-- Embeds `get_user_by_id`:
`return users_collection.find_one({"_id": ObjectId(user_id)})`.
`ObjectId(user_id)` raises `InvalidId` on a malformed string and nothing
catches it. -/
def get_user_by_id (user_id : String) (db : DB) : Except PyError (Option Rec) × DB :=
  match objectId user_id with
  | .error e => (.error e, db)
  | .ok o => (.ok (find_one o db), db)

/-- Embeds `add_user`: `insert_one` then
`find_one({"_id": result.inserted_id})`. -/
def add_user (name email : String) (db : DB) : Option Rec × DB :=
  let r := insert_one name email db
  (find_one r.1 r.2, r.2)

/-- Embeds `delete_user`:
`result = users_collection.delete_one({"_id": ObjectId(user_id)})` then
`return result.deleted_count>0`. `ObjectId(user_id)` raises `InvalidId`
on a malformed string and nothing catches it. -/
def delete_user (user_id : String) (db : DB) : Except PyError Bool × DB :=
  match objectId user_id with
  | .error e => (.error e, db)
  | .ok o =>
    let r := delete_one o db
    (.ok (decide (0 < r.1)), r.2)

end UserModel

/-! ## Resolver layer — `src/schema.py` -/

/-- The GraphQL `User` entity: `id: ID!`, `name: String!`,
`email: String!`. -/
structure User where
  id : String
  name : String
  email : String
deriving DecidableEq, Repr

/-- Shapes a stored document into the entity, as each resolver does:
`User(id=str(u["_id"]), name=u["name"], email=u["email"])`. -/
def recToUser (r : Rec) : User :=
  ⟨oidToString r.oid, r.name, r.email⟩

namespace Query

/-- Embeds the `users` resolver: shapes every document from
`get_all_users()`. -/
def users (db : DB) : Except PyError (List User) × DB :=
  let r := UserModel.get_all_users db
  (.ok (r.1.map recToUser), r.2)

/-- Embeds the `user_by_id` resolver: `get_user_by_id(id)`, then
`if u: return User(...)` else `return None`; a raised `InvalidId`
propagates. -/
def user_by_id (id : String) (db : DB) : Except PyError (Option User) × DB :=
  match UserModel.get_user_by_id id db with
  | (.error e, db') => (.error e, db')
  | (.ok (some u), db') => (.ok (some (recToUser u)), db')
  | (.ok none, db') => (.ok none, db')

end Query

namespace Mutation

/-- Embeds the `add_user` resolver: `u = add_user(name, email)` then
`User(id=str(u["_id"]), ...)`; if `u` were `None`, `u["_id"]` would
raise `TypeError`. -/
def add_user (name email : String) (db : DB) : Except PyError User × DB :=
  match UserModel.add_user name email db with
  | (some u, db') => (.ok (recToUser u), db')
  | (none, db') => (.error .typeError, db')

/-- Embeds the `delete_user` resolver: a direct pass-through to the
persistence adapter; a raised `InvalidId` propagates. -/
def delete_user (id : String) (db : DB) : Except PyError Bool × DB :=
  UserModel.delete_user id db

end Mutation

/-! ## Startup configuration — `src/database.py`

The module body runs at import time:
`mongo_uri = os.getenv('MONGO_URI')`, `mongo_db = os.getenv('MONGO_DB')`,
`client = MongoClient(mongo_uri)`, `db = client[mongo_db]`.
`os.getenv` returns `None` for an absent variable without raising. -/

/-- A Python exception escaping module initialization, which aborts
startup: `TypeError` from subscripting the client with `None`, or
`InvalidURI`/`ValueError` from `MongoClient` eagerly parsing a malformed
string host. -/
inductive StartupError
  | typeErrorDbName
  | invalidUri
deriving DecidableEq, Repr

/-- A constructed (not yet connected) pymongo client handle. -/
structure MongoClientHandle where
  host : Option String
deriving DecidableEq, Repr

/-- A pymongo database handle. -/
structure DbHandle where
  client : MongoClientHandle
  name : String
deriving DecidableEq, Repr

/-- Models the host parsing `MongoClient.__init__` performs eagerly on a
string host (its uri_parser / split_hosts): a `mongodb://` or
`mongodb+srv://` URI must name at least one host, and a plain
`host:port` must carry a numeric port; malformed values raise
`InvalidURI`/`ValueError` at construction time, before any connection is
attempted. This reproduces the documented failure modes, not the full
URI grammar (no claim depends on which specific strings are accepted). -/
def parseHostString (s : String) : Except StartupError MongoClientHandle :=
  if s.startsWith "mongodb://" then
    if (s.drop 10).isEmpty then .error .invalidUri else .ok ⟨some s⟩
  else if s.startsWith "mongodb+srv://" then
    if (s.drop 14).isEmpty then .error .invalidUri else .ok ⟨some s⟩
  else
    match s.split (· == ':') with
    | [_] => .ok ⟨some s⟩
    | [_, p] => if (p.toNat?).isSome then .ok ⟨some s⟩ else .error .invalidUri
    | _ => .error .invalidUri

/-- Models `MongoClient(host)`: a `None` host is accepted and falls back
to the driver default (`localhost:27017`) with nothing to parse, so
construction succeeds (the connection itself is made lazily); a string
host is eagerly parsed and malformed values raise at construction. -/
def mongoClient : Option String → Except StartupError MongoClientHandle
  | none => .ok ⟨none⟩
  | some s => parseHostString s

/-- Models `client[name]`: pymongo's `Database.__init__` raises
`TypeError` unless the name is a `str`, so subscripting with `None`
raises. -/
def clientGetItem (c : MongoClientHandle) (nm : Option String) : Except StartupError DbHandle :=
  match nm with
  | some n => .ok ⟨c, n⟩
  | none => .error .typeErrorDbName

/-- Embeds the `src/database.py` module body over a process environment
(the state after `load_dotenv()`): `client = MongoClient(mongo_uri)`
runs before `db = client[mongo_db]`, so a host-parse failure aborts
first. -/
def databaseStartup (env : String → Option String) : Except StartupError DbHandle :=
  match mongoClient (env "MONGO_URI") with
  | .error e => .error e
  | .ok c => clientGetItem c (env "MONGO_DB")

/-- State of the store after `n` repeated `delete_user` calls with the
same id string. -/
def deleteUserIter (id : String) : Nat → DB → DB
  | 0, st => st
  | n + 1, st => (Mutation.delete_user id (deleteUserIter id n st)).2

/-- Decidable equality of modelled Python results, so that concrete runs
can be checked by evaluation. -/
instance {ε α : Type} [DecidableEq ε] [DecidableEq α] : DecidableEq (Except ε α) :=
  fun a b =>
    match a, b with
    | .ok x, .ok y =>
      if h : x = y then .isTrue (by rw [h]) else .isFalse (fun hc => h (Except.ok.inj hc))
    | .error x, .error y =>
      if h : x = y then .isTrue (by rw [h]) else .isFalse (fun hc => h (Except.error.inj hc))
    | .ok _, .error _ => .isFalse (fun hc => Except.noConfusion hc)
    | .error _, .ok _ => .isFalse (fun hc => Except.noConfusion hc)

/-- A process environment defining `MONGO_DB` but not `MONGO_URI`. -/
def envMissingUri : String → Option String :=
  fun k => if k == "MONGO_DB" then some "SampleDB" else none

/-! ## Facts about the ObjectId model -/

theorem hexVal_hexChar : ∀ d < 16, hexVal (hexChar d) = d := by decide

theorem isHexChar_hexChar : ∀ d < 16, isHexChar (hexChar d) = true := by decide

theorem length_toHexChars : ∀ k n, (toHexChars k n).length = k := by
  intro k
  induction k with
  | zero => intro n; rfl
  | succ k ih =>
    intro n
    simp [toHexChars, ih]

theorem all_isHexChar_toHexChars : ∀ k n, (toHexChars k n).all isHexChar = true := by
  intro k
  induction k with
  | zero => intro n; rfl
  | succ k ih =>
    intro n
    simp only [toHexChars, List.all_append, ih, List.all_cons, List.all_nil,
      Bool.and_true, Bool.true_and]
    exact isHexChar_hexChar _ (Nat.mod_lt _ (by norm_num))

theorem parseHexChars_append_singleton (cs : List Char) (c : Char) :
    parseHexChars (cs ++ [c]) = 16 * parseHexChars cs + hexVal c := by
  simp [parseHexChars, List.foldl_append]

theorem parseHexChars_toHexChars : ∀ k n, parseHexChars (toHexChars k n) = n % 16 ^ k := by
  intro k
  induction k with
  | zero => intro n; simp [toHexChars, parseHexChars, Nat.mod_one]
  | succ k ih =>
    intro n
    rw [toHexChars, parseHexChars_append_singleton, ih,
      hexVal_hexChar _ (Nat.mod_lt _ (by norm_num)),
      pow_succ, mul_comm (16 ^ k) 16, Nat.mod_mul]
    omega

theorem isValidOidString_oidToString (o : OId) :
    isValidOidString (oidToString o) = true := by
  simp [isValidOidString, oidToString, String.length, length_toHexChars,
    all_isHexChar_toHexChars]

theorem objectId_oidToString (o : OId) (h : o.val < 16 ^ 24) :
    objectId (oidToString o) = .ok o := by
  simp only [objectId, isValidOidString_oidToString, if_pos]
  have : parseHexChars (oidToString o).data = o.val := by
    show parseHexChars (toHexChars 24 o.val) = o.val
    rw [parseHexChars_toHexChars, Nat.mod_eq_of_lt h]
  simp [this]

/-! ## Facts about the store operations -/

theorem oid_ne_of_lt {r : Rec} {n : Nat} (h : r.oid.val < n) : r.oid ≠ (⟨n⟩ : OId) := by
  intro hc
  rw [hc] at h
  exact lt_irrefl _ h

theorem find?_fresh_append (l : List Rec) (o : OId) (name email : String)
    (h : ∀ r ∈ l, r.oid ≠ o) :
    (l ++ [(⟨o, name, email⟩ : Rec)]).find? (fun r => r.oid == o) = some (⟨o, name, email⟩ : Rec) := by
  rw [List.find?_append]
  have hnone : l.find? (fun r => r.oid == o) = none := by
    rw [List.find?_eq_none]
    intro r hr
    simpa using h r hr
  rw [hnone]
  simp

theorem eraseP_fresh_append (l : List Rec) (o : OId) (name email : String)
    (h : ∀ r ∈ l, r.oid ≠ o) :
    (l ++ [(⟨o, name, email⟩ : Rec)]).eraseP (fun r => r.oid == o) = l := by
  rw [List.eraseP_append_right _ (by intro b hb; simpa using h b hb)]
  simp

theorem any_fresh_append (l : List Rec) (o : OId) (name email : String) :
    (l ++ [(⟨o, name, email⟩ : Rec)]).any (fun r => r.oid == o) = true := by
  simp

theorem any_none_of_fresh (l : List Rec) (o : OId) (h : ∀ r ∈ l, r.oid ≠ o) :
    l.any (fun r => r.oid == o) = false := by
  rw [List.any_eq_false]
  intro r hr
  simpa using h r hr

theorem delete_user_no_match (id : String) (o : OId) (st : DB)
    (hid : objectId id = .ok o) (hnone : ∀ r ∈ st.records, r.oid ≠ o) :
    Mutation.delete_user id st = (.ok false, st) := by
  obtain ⟨recs, nid⟩ := st
  have hany : recs.any (fun r => r.oid == o) = false := any_none_of_fresh recs o hnone
  have her : recs.eraseP (fun r => r.oid == o) = recs :=
    List.eraseP_of_forall_not (List.any_eq_false.mp hany)
  simp [Mutation.delete_user, UserModel.delete_user, hid, delete_one, hany, her]

theorem deleteUserIter_fixed (id : String) (o : OId) (st : DB)
    (hid : objectId id = .ok o) (hnone : ∀ r ∈ st.records, r.oid ≠ o) :
    ∀ n, deleteUserIter id n st = st := by
  intro n
  induction n with
  | zero => rfl
  | succ n ih =>
    show (Mutation.delete_user id (deleteUserIter id n st)).2 = st
    rw [ih, delete_user_no_match id o st hid hnone]

theorem user_by_id_parse_error (id : String) (db : DB) (e : PyError)
    (h : objectId id = .error e) : Query.user_by_id id db = (.error e, db) := by
  simp [Query.user_by_id, UserModel.get_user_by_id, h]

theorem user_by_id_parse_ok_none (id : String) (o : OId) (db : DB)
    (h : objectId id = .ok o) (hf : find_one o db = none) :
    Query.user_by_id id db = (.ok none, db) := by
  simp [Query.user_by_id, UserModel.get_user_by_id, h, hf]

theorem user_by_id_parse_ok_some (id : String) (o : OId) (db : DB) (r : Rec)
    (h : objectId id = .ok o) (hf : find_one o db = some r) :
    Query.user_by_id id db = (.ok (some (recToUser r)), db) := by
  simp [Query.user_by_id, UserModel.get_user_by_id, h, hf]

theorem userModel_add_user_spec (name email : String) (db : DB)
    (hfresh : ∀ r ∈ db.records, r.oid.val < db.nextId) :
    UserModel.add_user name email db =
      (some (⟨⟨db.nextId⟩, name, email⟩ : Rec),
       ⟨db.records ++ [(⟨⟨db.nextId⟩, name, email⟩ : Rec)], db.nextId + 1⟩) := by
  have hfind := find?_fresh_append db.records ⟨db.nextId⟩ name email
    (fun r hr => oid_ne_of_lt (hfresh r hr))
  show ((db.records ++ [(⟨⟨db.nextId⟩, name, email⟩ : Rec)]).find? (fun r => r.oid == ⟨db.nextId⟩),
        (⟨db.records ++ [(⟨⟨db.nextId⟩, name, email⟩ : Rec)], db.nextId + 1⟩ : DB)) = _
  rw [hfind]

theorem mutation_add_user_spec (name email : String) (db : DB)
    (hfresh : ∀ r ∈ db.records, r.oid.val < db.nextId) :
    Mutation.add_user name email db =
      (.ok (recToUser ⟨⟨db.nextId⟩, name, email⟩),
       ⟨db.records ++ [(⟨⟨db.nextId⟩, name, email⟩ : Rec)], db.nextId + 1⟩) := by
  simp only [Mutation.add_user, userModel_add_user_spec name email db hfresh]

/-! ## Claims about the error-handling paths -/

/-- Claim C1 is false on the code: `user_by_id` with the malformed id
string "not-a-valid-id" (against an empty store) propagates the
`InvalidId` exception raised by `ObjectId(...)` in `get_user_by_id`; it
does not return an absent result. -/
theorem C1_counterexample :
    (Query.user_by_id "not-a-valid-id" ⟨[], 0⟩).1 = Except.error PyError.invalidId ∧
    (Query.user_by_id "not-a-valid-id" ⟨[], 0⟩).1 ≠ Except.ok none := by
  decide

/-- Claim C1 (amended): for every id string that is not a well-formed
ObjectId string, the lookup path `user_by_id` / `get_user_by_id` raises
the parse fault (`InvalidId`), which propagates to the caller unhandled,
and leaves the store unchanged; it does not return an absent result. -/
theorem C1_amended (id : String) (db : DB) (h : isValidOidString id = false) :
    Query.user_by_id id db = (.error .invalidId, db) := by
  simp [Query.user_by_id, UserModel.get_user_by_id, objectId, h]

theorem C1_witness :
    isValidOidString "not-a-valid-id" = false ∧
    Query.user_by_id "not-a-valid-id" ⟨[], 0⟩ = (.error .invalidId, ⟨[], 0⟩) :=
  ⟨by decide, C1_amended "not-a-valid-id" ⟨[], 0⟩ (by decide)⟩

/-- Claim C2 is false on the code: `delete_user("not-a-valid-id")`
propagates the `InvalidId` exception raised by `ObjectId(...)`; it does
not evaluate to `false`. -/
theorem C2_counterexample :
    (Mutation.delete_user "not-a-valid-id" ⟨[], 0⟩).1 = Except.error PyError.invalidId ∧
    (Mutation.delete_user "not-a-valid-id" ⟨[], 0⟩).1 ≠ Except.ok false := by
  decide

/-- Claim C2 (amended): for every id string that is not a well-formed
ObjectId string, `delete_user` raises the parse fault (`InvalidId`),
which propagates to the caller unhandled, and leaves the store
unchanged; it does not return `false`. -/
theorem C2_amended (id : String) (db : DB) (h : isValidOidString id = false) :
    Mutation.delete_user id db = (.error .invalidId, db) := by
  simp [Mutation.delete_user, UserModel.delete_user, objectId, h]

theorem C2_witness :
    isValidOidString "not-a-valid-id" = false ∧
    Mutation.delete_user "not-a-valid-id" ⟨[], 0⟩ = (.error .invalidId, ⟨[], 0⟩) :=
  ⟨by decide, C2_amended "not-a-valid-id" ⟨[], 0⟩ (by decide)⟩

/-- Claim C9: for every well-formed identifier that matches no stored
record, `user_by_id` returns the explicit absence marker `None`, not an
error. -/
theorem C9_wellformed_not_found (id : String) (o : OId) (db : DB)
    (hid : objectId id = .ok o) (habs : ∀ r ∈ db.records, r.oid ≠ o) :
    (Query.user_by_id id db).1 = .ok none := by
  have hnone : find_one o db = none := by
    rw [find_one, List.find?_eq_none]
    intro r hr
    simpa using habs r hr
  simp [Query.user_by_id, UserModel.get_user_by_id, hid, hnone]

theorem C9_witness :
    (Query.user_by_id "000000000000000000000000" ⟨[⟨⟨1⟩, "Alice", "alice@example.com"⟩], 2⟩).1 =
      .ok none :=
  C9_wellformed_not_found "000000000000000000000000" ⟨0⟩ _ (by decide) (by decide)

/-- Claim C6: when the store contains no records, `users()` returns the
empty sequence (an `ok` result, never an error). -/
theorem C6_users_empty (db : DB) (h : db.records = []) :
    (Query.users db).1 = .ok [] := by
  simp [Query.users, UserModel.get_all_users, find, h]

theorem C6_witness : (Query.users ⟨[], 0⟩).1 = .ok [] :=
  C6_users_empty ⟨[], 0⟩ rfl

/-- Claim C10: the read operations `users` and `user_by_id` (and the
persistence functions they call) never modify the stored collection:
the store state they return equals the one they were given, for every
store and every id string, including malformed ones. -/
theorem C10_reads_pure (db : DB) (id : String) :
    (Query.users db).2 = db ∧ (Query.user_by_id id db).2 = db ∧
    (UserModel.get_all_users db).2 = db ∧ (UserModel.get_user_by_id id db).2 = db := by
  refine ⟨rfl, ?_, rfl, ?_⟩
  · unfold Query.user_by_id UserModel.get_user_by_id
    cases objectId id with
    | error e => rfl
    | ok o => cases h : find_one o db <;> simp [h]
  · unfold UserModel.get_user_by_id
    cases objectId id <;> rfl

/-! ## Claims about startup configuration -/

/-- Claim C7 is false on the code: with `MONGO_DB` set but `MONGO_URI`
absent from the environment, `os.getenv` returns `None` without raising
and `MongoClient(None)` falls back to the driver default host, so module
initialization succeeds — startup does not fail. -/
theorem C7_counterexample :
    envMissingUri "MONGO_URI" = none ∧
    databaseStartup envMissingUri = .ok ⟨⟨none⟩, "SampleDB"⟩ := by
  constructor <;> rfl

/-- Claim C7 (amended): absence of `MONGO_DB` from the environment is
startup-fatal (module initialization raises — `TypeError` from
subscripting the client with `None`, or already `InvalidURI` if a
present `MONGO_URI` is malformed), but absence of `MONGO_URI` alone is
not: `os.getenv` returns `None` without raising, `MongoClient(None)`
falls back to the driver default host, and startup succeeds whenever
`MONGO_URI` is absent and `MONGO_DB` is present. -/
theorem C7_amended (env : String → Option String) :
    (env "MONGO_DB" = none → ∃ e, databaseStartup env = .error e) ∧
    (∀ dbname, env "MONGO_URI" = none → env "MONGO_DB" = some dbname →
      databaseStartup env = .ok ⟨⟨none⟩, dbname⟩) := by
  constructor
  · intro h
    cases hmc : mongoClient (env "MONGO_URI") with
    | error e => exact ⟨e, by simp [databaseStartup, hmc]⟩
    | ok c => exact ⟨.typeErrorDbName, by simp [databaseStartup, hmc, clientGetItem, h]⟩
  · intro dbname huri h
    simp [databaseStartup, huri, mongoClient, clientGetItem, h]

theorem C7_witness :
    envMissingUri "MONGO_URI" = none ∧
    envMissingUri "MONGO_DB" = some "SampleDB" ∧
    databaseStartup envMissingUri = .ok ⟨⟨none⟩, "SampleDB"⟩ :=
  ⟨rfl, rfl, (C7_amended envMissingUri).2 "SampleDB" rfl rfl⟩

/-! ## Claims about create, read and delete -/

/-- Claim C3: for every (name, email) pair, `add_user` followed by
`user_by_id` on the id of the returned entity yields a present record
whose name and email equal the arguments, from any well-formed store. -/
theorem C3_add_then_lookup (name email : String) (db : DB) (hwf : db.wf) :
    ∃ u : User,
      (Mutation.add_user name email db).1 = .ok u ∧
      u.name = name ∧ u.email = email ∧
      (Query.user_by_id u.id (Mutation.add_user name email db).2).1 = .ok (some u) := by
  obtain ⟨hfresh, hbound⟩ := hwf
  have hmadd := mutation_add_user_spec name email db hfresh
  refine ⟨recToUser ⟨⟨db.nextId⟩, name, email⟩, by rw [hmadd], rfl, rfl, ?_⟩
  rw [hmadd]
  have hid : objectId (recToUser ⟨⟨db.nextId⟩, name, email⟩).id = .ok ⟨db.nextId⟩ :=
    objectId_oidToString ⟨db.nextId⟩ hbound
  have hfound : find_one ⟨db.nextId⟩
      (⟨db.records ++ [(⟨⟨db.nextId⟩, name, email⟩ : Rec)], db.nextId + 1⟩ : DB) =
      some (⟨⟨db.nextId⟩, name, email⟩ : Rec) :=
    find?_fresh_append db.records ⟨db.nextId⟩ name email
      (fun r hr => oid_ne_of_lt (hfresh r hr))
  simp [Query.user_by_id, UserModel.get_user_by_id, hid, hfound]

theorem C3_witness :
    DB.wf ⟨[], 0⟩ ∧
    ∃ u : User,
      (Mutation.add_user "Alice" "alice@example.com" ⟨[], 0⟩).1 = .ok u ∧
      u.name = "Alice" ∧ u.email = "alice@example.com" ∧
      (Query.user_by_id u.id (Mutation.add_user "Alice" "alice@example.com" ⟨[], 0⟩).2).1 =
        .ok (some u) :=
  ⟨⟨by simp, by norm_num⟩,
   C3_add_then_lookup "Alice" "alice@example.com" ⟨[], 0⟩ ⟨by simp, by norm_num⟩⟩

/-- Claim C4: for an id obtained from a prior `add_user`, with no
interleaving operations, the first `delete_user` call returns `true`,
and every subsequent `delete_user` call with the same id — the second,
third, and so on, after any number of further deletes of that id —
returns `false` (not an error), from any well-formed store. -/
theorem C4_delete_once_then_always_false (name email : String) (db : DB) (hwf : db.wf) :
    ∃ u : User,
      (Mutation.add_user name email db).1 = .ok u ∧
      (Mutation.delete_user u.id (Mutation.add_user name email db).2).1 = .ok true ∧
      ∀ n, (Mutation.delete_user u.id
        (deleteUserIter u.id n
          (Mutation.delete_user u.id (Mutation.add_user name email db).2).2)).1 = .ok false := by
  obtain ⟨hfresh, hbound⟩ := hwf
  have hne : ∀ r ∈ db.records, r.oid ≠ (⟨db.nextId⟩ : OId) :=
    fun r hr => oid_ne_of_lt (hfresh r hr)
  have hmadd := mutation_add_user_spec name email db hfresh
  have hid : objectId (recToUser ⟨⟨db.nextId⟩, name, email⟩).id = .ok ⟨db.nextId⟩ :=
    objectId_oidToString ⟨db.nextId⟩ hbound
  have hdel1 : Mutation.delete_user (recToUser ⟨⟨db.nextId⟩, name, email⟩).id
      (⟨db.records ++ [(⟨⟨db.nextId⟩, name, email⟩ : Rec)], db.nextId + 1⟩ : DB) =
      (.ok true, ⟨db.records, db.nextId + 1⟩) := by
    simp only [Mutation.delete_user, UserModel.delete_user, hid, delete_one,
      any_fresh_append db.records ⟨db.nextId⟩ name email,
      eraseP_fresh_append db.records ⟨db.nextId⟩ name email hne]
    simp
  have hne2 : ∀ r ∈ (⟨db.records, db.nextId + 1⟩ : DB).records, r.oid ≠ (⟨db.nextId⟩ : OId) :=
    hne
  refine ⟨recToUser ⟨⟨db.nextId⟩, name, email⟩, by rw [hmadd],
    by rw [hmadd]; rw [hdel1], ?_⟩
  intro n
  rw [hmadd, hdel1]
  show (Mutation.delete_user (recToUser ⟨⟨db.nextId⟩, name, email⟩).id
    (deleteUserIter (recToUser ⟨⟨db.nextId⟩, name, email⟩).id n
      (⟨db.records, db.nextId + 1⟩ : DB))).1 = .ok false
  rw [deleteUserIter_fixed _ ⟨db.nextId⟩ _ hid hne2 n,
    delete_user_no_match _ ⟨db.nextId⟩ _ hid hne2]

theorem C4_witness :
    DB.wf ⟨[], 0⟩ ∧
    ∃ u : User,
      (Mutation.add_user "Bob" "bob@example.com" ⟨[], 0⟩).1 = .ok u ∧
      (Mutation.delete_user u.id (Mutation.add_user "Bob" "bob@example.com" ⟨[], 0⟩).2).1 =
        .ok true ∧
      ∀ n, (Mutation.delete_user u.id
        (deleteUserIter u.id n
          (Mutation.delete_user u.id
            (Mutation.add_user "Bob" "bob@example.com" ⟨[], 0⟩).2).2)).1 = .ok false :=
  ⟨⟨by simp, by norm_num⟩,
   C4_delete_once_then_always_false "Bob" "bob@example.com" ⟨[], 0⟩ ⟨by simp, by norm_num⟩⟩

/-- Claim C5: every `User` entity handed back by any operation (`users`,
`user_by_id`, `add_user`) carries a genuine identifier — its `id` field
is a well-formed 24-hex-character ObjectId string (in particular never
null/empty). -/
theorem C5_returned_ids (db : DB) :
    (∀ us, (Query.users db).1 = .ok us → ∀ u ∈ us, isValidOidString u.id = true) ∧
    (∀ id u, (Query.user_by_id id db).1 = .ok (some u) → isValidOidString u.id = true) ∧
    (∀ name email u, (Mutation.add_user name email db).1 = .ok u →
      isValidOidString u.id = true) := by
  refine ⟨?_, ?_, ?_⟩
  · intro us hus u hu
    have hmap : us = db.records.map recToUser := by
      simpa [Query.users, UserModel.get_all_users, find] using hus.symm
    rw [hmap] at hu
    obtain ⟨r, _, hr⟩ := List.mem_map.mp hu
    rw [← hr]
    exact isValidOidString_oidToString r.oid
  · intro id u hu
    cases hobj : objectId id with
    | error e => rw [user_by_id_parse_error id db e hobj] at hu; simp at hu
    | ok o =>
      cases hf : find_one o db with
      | none => rw [user_by_id_parse_ok_none id o db hobj hf] at hu; simp at hu
      | some r =>
        rw [user_by_id_parse_ok_some id o db r hobj hf] at hu
        simp only [Except.ok.injEq, Option.some.injEq] at hu
        rw [← hu]
        exact isValidOidString_oidToString r.oid
  · intro name email u hu
    unfold Mutation.add_user at hu
    cases hm : UserModel.add_user name email db with
    | mk fst snd =>
      rw [hm] at hu
      cases fst with
      | none => simp at hu
      | some r =>
        simp only [Except.ok.injEq] at hu
        rw [← hu]
        exact isValidOidString_oidToString r.oid

theorem C5_witness :
    isValidOidString
      (User.mk "000000000000000000000001" "Alice" "alice@example.com").id = true :=
  (C5_returned_ids ⟨[⟨⟨1⟩, "Alice", "alice@example.com"⟩], 2⟩).2.1
    "000000000000000000000001"
    (User.mk "000000000000000000000001" "Alice" "alice@example.com") (by decide)

/-- Claim C8: `delete_user(id)` removes at most one record — the one
whose identifier equals the parsed id — and leaves every other record in
place; whenever it does not return `true` (no matching record, or a
malformed id), the store is entirely unchanged, and the minting source is
never touched. -/
theorem C8_delete_frame (id : String) (db : DB) :
    List.Sublist (Mutation.delete_user id db).2.records db.records ∧
    db.records.length ≤ (Mutation.delete_user id db).2.records.length + 1 ∧
    (∀ o, objectId id = .ok o →
      ∀ r ∈ db.records, r.oid ≠ o → r ∈ (Mutation.delete_user id db).2.records) ∧
    ((Mutation.delete_user id db).1 ≠ .ok true → (Mutation.delete_user id db).2 = db) ∧
    (Mutation.delete_user id db).2.nextId = db.nextId := by
  obtain ⟨recs, nid⟩ := db
  cases hobj : objectId id with
  | error e =>
    have hd : Mutation.delete_user id ⟨recs, nid⟩ = (.error e, ⟨recs, nid⟩) := by
      simp [Mutation.delete_user, UserModel.delete_user, hobj]
    rw [hd]
    refine ⟨List.Sublist.refl _, Nat.le_succ recs.length, ?_, fun _ => rfl, rfl⟩
    intro o ho
    simp at ho
  | ok o =>
    have hd : Mutation.delete_user id ⟨recs, nid⟩ =
        (.ok (decide (0 < if recs.any (fun r => r.oid == o) then 1 else 0)),
         ⟨recs.eraseP (fun r => r.oid == o), nid⟩) := by
      simp [Mutation.delete_user, UserModel.delete_user, hobj, delete_one]
    rw [hd]
    refine ⟨List.eraseP_sublist recs, ?_, ?_, ?_, rfl⟩
    · show recs.length ≤ (recs.eraseP (fun r => r.oid == o)).length + 1
      rw [List.length_eraseP]
      split <;> omega
    · intro o2 ho2 r hr hne
      have ho2 : o2 = o := (Except.ok.inj ho2).symm
      rw [ho2] at hne
      exact (List.mem_eraseP_of_neg (by simpa using hne)).mpr hr
    · intro hne
      by_cases hany : recs.any (fun r => r.oid == o) = true
      · rw [hany] at hne
        simp at hne
      · have hanyf : recs.any (fun r => r.oid == o) = false := by
          simpa using hany
        have her : recs.eraseP (fun r => r.oid == o) = recs :=
          List.eraseP_of_forall_not (List.any_eq_false.mp hanyf)
        show (⟨recs.eraseP (fun r => r.oid == o), nid⟩ : DB) = ⟨recs, nid⟩
        rw [her]

theorem C8_witness :
    (⟨⟨1⟩, "Alice", "alice@example.com"⟩ : Rec) ∈
      (Mutation.delete_user "000000000000000000000000"
        ⟨[⟨⟨1⟩, "Alice", "alice@example.com"⟩], 2⟩).2.records :=
  (C8_delete_frame "000000000000000000000000" ⟨[⟨⟨1⟩, "Alice", "alice@example.com"⟩], 2⟩).2.2.1
    ⟨0⟩ (by decide) ⟨⟨1⟩, "Alice", "alice@example.com"⟩ (by simp) (by decide)

end FlaskMongo
